import Mathlib

/-!
Verification of the Audacity AudioUnit host wrapper
(src/effects/audiounits/AudioUnitWrapper.cpp) against its natural-language
specification.  The C++ code is shallowly embedded: machine integers become
`Nat`/`Int` with explicit bounds, parameter and sample values (C `float` /
`Float64`) become `Rat` (the claims under study concern which values flow
where, not rounding), the opaque native plugin handle becomes an explicit
record of its observable behavior (current parameter values plus the fixed
success/failure pattern of each native call), and stateful member functions
become explicit state-passing functions.
-/

namespace AudioUnitEffectsModule

/-- `AudioUnitEffectsModule::FromOSType`: byte-swaps the packed 32-bit
identifier (`rev` mirrors the C mask-and-shift expression
`(type & 0xff000000) >> 24 | (type & 0x00ff0000) >> 8 |
(type & 0x0000ff00) << 8 | (type & 0x000000ff) << 24`, each mask-and-shift
rendered as division/modulus by the corresponding powers of two), then
renders `rev`'s four bytes in little-endian memory order, which is how
`wxString::FromUTF8((char *)&rev, 4)` reads them on the little-endian Mac
targets this code compiles for.  The resulting 4-character text is modelled
as its list of byte values. -/
def FromOSType (type : Nat) : List Nat :=
  let rev : Nat :=
    (type / 0x1000000 % 0x100) +
    (type / 0x10000 % 0x100) * 0x100 +
    (type / 0x100 % 0x100) * 0x10000 +
    (type % 0x100) * 0x1000000
  [rev % 0x100, rev / 0x100 % 0x100, rev / 0x10000 % 0x100, rev / 0x1000000 % 0x100]

/-- `AudioUnitEffectsModule::ToOSType`: packs the first four single-byte
characters of the string, first character into the most significant byte
(`buf[0] << 24 | buf[1] << 16 | buf[2] << 8 | buf[3]`). -/
def ToOSType (s : List Nat) : Nat :=
  (s.getD 0 0) * 0x1000000 + (s.getD 1 0) * 0x10000 + (s.getD 2 0) * 0x100 + s.getD 3 0

end AudioUnitEffectsModule

namespace AudioUnitEffect

/-- One entry of the `kAudioUnitProperty_SupportedNumChannels` table
(`AUChannelInfo`): declared input/output channel counts, a negative value
meaning a wildcard. -/
structure AUChannelInfo where
  inChannels : Int
  outChannels : Int
deriving DecidableEq

/-- The wildcard-resolution step at the head of the scan loop in
`AudioUnitEffect::GetChannelCounts`: a negative (wildcard) field is replaced
by 2, on whichever sides are negative. -/
def resolveChannels (ci : AUChannelInfo) : Int × Int :=
  let ic := ci.inChannels
  let oc := ci.outChannels
  if ic < 0 ∧ oc ≥ 0 then (2, oc)
  else if ic ≥ 0 ∧ oc < 0 then (ic, 2)
  else if ic < 0 ∧ oc < 0 then (2, 2)
  else (ic, oc)

/-- `AudioUnitEffect::GetChannelCounts`.  `info = none` models the two early
returns (the `kAudioUnitProperty_SupportedNumChannels` property is absent or
unreadable), which leave the defaults `mAudioIns = mAudioOuts = 2`.
Otherwise the scan loop computes the eight `have*` flags from the
wildcard-resolved entries (the flag conditions are the `ic == _ && oc == _`
comparisons of the loop body) and the trailing if-else chain picks the
channel pair; the initial assignment `mAudioIns = mAudioOuts = 2` survives
when no flag is set. -/
def GetChannelCounts (info : Option (List AUChannelInfo)) : Nat × Nat :=
  match info with
  | none => (2, 2)
  | some l =>
    let rl := l.map resolveChannels
    let haves2s := rl.any fun p => p.1 == 2 && p.2 == 2
    let havem2m := rl.any fun p => p.1 == 1 && p.2 == 1
    let havem2s := rl.any fun p => p.1 == 1 && p.2 == 2
    let haves2m := rl.any fun p => p.1 == 2 && p.2 == 1
    let haven2m := rl.any fun p => p.1 == 0 && p.2 == 1
    let haven2s := rl.any fun p => p.1 == 0 && p.2 == 2
    let havem2n := rl.any fun p => p.1 == 1 && p.2 == 0
    let haves2n := rl.any fun p => p.1 == 2 && p.2 == 0
    if haves2s then (2, 2)
    else if havem2m then (1, 1)
    else if havem2s then (1, 2)
    else if haves2m then (2, 1)
    else if haven2m then (0, 1)
    else if haven2s then (0, 2)
    else if haves2n then (2, 0)
    else if havem2n then (1, 0)
    else (2, 2)

/-- The fixed priority table stated by the specification: exact
stereo/stereo, exact mono/mono, mono-in/stereo-out, stereo-in/mono-out,
zero-in/mono-out (generator), zero-in/stereo-out (generator),
stereo-in/zero-out (analyzer), mono-in/zero-out (analyzer). -/
def channelPriorityTable : List (Int × Int) :=
  [(2, 2), (1, 1), (1, 2), (2, 1), (0, 1), (0, 2), (2, 0), (1, 0)]

/-- First pattern of `table` present in `rl`, if any (the specification's
"first match wins" reading of the priority table). -/
def pickFirst (rl : List (Int × Int)) : List (Int × Int) → Option (Int × Int)
  | [] => none
  | p :: ps => if rl.contains p then some p else pickFirst rl ps

/-- The channel-negotiation policy exactly as the specification words it:
resolve wildcards to 2, then take the first pattern of the priority table
present in the resolved list, defaulting to stereo/stereo when the plugin
reports no table at all or none of the patterns is present. -/
def negotiateSpec (info : Option (List AUChannelInfo)) : Nat × Nat :=
  match info with
  | none => (2, 2)
  | some l =>
    match pickFirst (l.map resolveChannels) channelPriorityTable with
    | some (a, b) => (a.toNat, b.toNat)
    | none => (2, 2)

end AudioUnitEffect

namespace AudioUnitWrapper

/-- Observable behavior of one native AudioUnit handle at global scope:
its current parameter values, and the fixed per-parameter success pattern of
`AudioUnitGetParameter` (`gettable`), `AudioUnitSetParameter` (`settable`)
and the `ParameterInfo` query (`hasName`, i.e. `pi.mName` holds a value).
`params` is the `kAudioUnitProperty_ParameterList` contents over which
`ForEachParameter` iterates. -/
structure AudioUnit where
  values : Nat → Rat
  gettable : Nat → Bool
  settable : Nat → Bool
  hasName : Nat → Bool
  params : List Nat

/-- `AudioUnitEffectSettings`: the settings cache, mapping a parameter id to
its cached value when present. -/
@[ext]
structure AudioUnitEffectSettings where
  values : Nat → Option Rat

/-- `AudioUnitEffectSettings::ResetValues` as invoked at the top of
`FetchSettings`.  Modelled from the spec: the settings class is declared in
AudioUnitWrapper.h, which is not part of this source excerpt; the call site's
comment says "First zero out all values, in case any parameters are not
retrievable", the spec says FetchSettings "zero-initializes the cache" and
that the cache "never holds ids unknown to the instance's ParameterTable",
so the reset cache holds value 0 for each declared parameter id and nothing
else. -/
def ResetValues (au : AudioUnit) : AudioUnitEffectSettings :=
  ⟨fun id => if id ∈ au.params then some 0 else none⟩

/-- `AudioUnitWrapper::FetchSettings`: zeroes the cache, then iterates
`ForEachParameter`; for each declared parameter whose `ParameterInfo` has a
name and whose `AudioUnitGetParameter` succeeds, writes the unit's current
value into the cache; a failed query is silently skipped, leaving the reset
default.  Always returns `true`. -/
def FetchSettings (au : AudioUnit) : Bool × AudioUnitEffectSettings :=
  let settings := au.params.foldl (fun s ID =>
    if au.hasName ID && au.gettable ID then
      ⟨fun id => if id = ID then some (au.values ID) else s.values id⟩
    else s) (ResetValues au)
  (true, settings)

/-- `AudioUnitWrapper::StoreSettings`: iterates `ForEachParameter`; for each
declared parameter with a name whose id is present in the supplied cache,
calls `AudioUnitSetParameter` with the cached value (a failed set is silently
ignored); ids absent from the cache leave the unit's parameter unchanged.
Always returns `true`. -/
def StoreSettings (au : AudioUnit) (settings : AudioUnitEffectSettings) : Bool × AudioUnit :=
  let newValues := au.params.foldl (fun vals ID =>
    if au.hasName ID then
      match settings.values ID with
      | some v => if au.settable ID then (fun id => if id = ID then v else vals id) else vals
      | none => vals
    else vals) au.values
  (true, { au with values := newValues })

end AudioUnitWrapper

namespace AudioUnitEffect

/-- State of one `AudioUnitEffect` instance relevant to latency queries and
block processing: the `UseLatency` option (`mUseLatency`), the one-shot flag
`mLatencyDone`, `mSampleRate`, the value the plugin reports for
`kAudioUnitProperty_Latency` (`unitLatency`), `mReady`, and the running
`mTimeStamp.mSampleTime`. -/
structure EffectState where
  useLatency : Bool
  latencyDone : Bool
  sampleRate : Rat
  unitLatency : Rat
  ready : Bool
  sampleTime : Rat

/-- `AudioUnitEffect::ProcessInitialize`: reinitializes the buffer lists,
zeroes the timestamp, then performs `SetRateAndChannels`, render-callback
registration and `AudioUnitReset`, whose combined success is `initOk`; on
success clears `mLatencyDone` and sets `mReady`, returning `true`.  Every
failure point lies after the timestamp memset and before
`mLatencyDone = false`, so on failure only the timestamp has changed. -/
def ProcessInitialize (initOk : Bool) (st : EffectState) : Bool × EffectState :=
  if initOk then
    (true, { st with sampleTime := 0, latencyDone := false, ready := true })
  else
    (false, { st with sampleTime := 0 })

/-- `AudioUnitEffect::GetLatency`: when `mUseLatency` is set and
`mLatencyDone` is not, sets `mLatencyDone`, queries
`kAudioUnitProperty_Latency` and returns it scaled by the sample rate
(`sampleCount(latency * mSampleRate)`); in every other case returns 0 and
leaves the state unchanged. -/
def GetLatency (st : EffectState) : Rat × EffectState :=
  if st.useLatency && !st.latencyDone then
    (st.unitLatency * st.sampleRate, { st with latencyDone := true })
  else
    (0, st)

/-- Value returned by the `(n+1)`-th consecutive `GetLatency` call starting
from state `st`. -/
def nthGetLatency : Nat → EffectState → Rat
  | 0, st => (GetLatency st).1
  | n + 1, st => nthGetLatency n (GetLatency st).2

/-- `AudioUnitEffect::ProcessBlock`: points the input/output buffer lists at
the caller's arrays, calls `AudioUnitRender` (whose success is `renderOk`);
on failure returns 0 having changed nothing, on success advances
`mTimeStamp.mSampleTime` by `blockLen` and returns `blockLen`.  The function
is total: no exception crosses this boundary, every outcome is a returned
count. -/
def ProcessBlock (renderOk : Bool) (blockLen : Nat) (st : EffectState) : Nat × EffectState :=
  if renderOk then
    (blockLen, { st with sampleTime := st.sampleTime + blockLen })
  else
    (0, st)

/-- Realtime summing state of the master `AudioUnitEffect`: `mAudioIns`, the
per-channel summing input buffers `mMasterIn` (channel, then sample index),
and the per-cycle maximum frame counter `mNumSamples`. -/
structure RealtimeState where
  audioIns : Nat
  masterIn : Nat → Nat → Rat
  numSamples : Nat

/-- One `RealtimeProcess` invocation's arguments: the group's input buffers
and its frame count `numSamples`. -/
structure RTCall where
  inbuf : Nat → Nat → Rat
  n : Nat

/-- `AudioUnitEffect::RealtimeProcessStart`: memsets every summing input
buffer to zero and clears `mNumSamples`. -/
def RealtimeProcessStart (st : RealtimeState) : RealtimeState :=
  { st with masterIn := fun _ _ => 0, numSamples := 0 }

/-- The summing half of `AudioUnitEffect::RealtimeProcess`: for each channel
`c < mAudioIns` and sample `s < numSamples`, adds `inbuf[c][s]` into
`mMasterIn[c][s]`, then raises `mNumSamples` to `max numSamples mNumSamples`.
(The call also forwards the buffers to `mSlaves[group]->ProcessBlock`, which
is the `ProcessBlock` transition of that slave's own state and does not touch
the summing state modelled here.) -/
def RealtimeProcess (st : RealtimeState) (call : RTCall) : RealtimeState :=
  { st with
    masterIn := fun c s =>
      if c < st.audioIns ∧ s < call.n then st.masterIn c s + call.inbuf c s
      else st.masterIn c s,
    numSamples := max call.n st.numSamples }

/-- One audio cycle: `RealtimeProcessStart`, then the given sequence of
`RealtimeProcess` calls. -/
def runCycle (st : RealtimeState) (calls : List RTCall) : RealtimeState :=
  calls.foldl RealtimeProcess (RealtimeProcessStart st)

/-- `AudioUnitEffect::RealtimeProcessEnd`: runs the master instance's
`ProcessBlock` over the summing buffers for `mNumSamples` frames and returns
`true`. -/
def RealtimeProcessEnd (renderOk : Bool) (rt : RealtimeState) (st : EffectState) :
    Bool × (Nat × EffectState) :=
  (true, ProcessBlock renderOk rt.numSamples st)

/-- One preset configuration group of the host's private-config store: the
legacy `"Parameters"` entry and the blob `"Data"` (`PRESET_KEY`) entry. -/
structure PresetConfig where
  parameters : Option String
  data : Option String
deriving DecidableEq

/-- Fixed outcomes of the external calls made by `LoadPreset`/`SavePreset`:
`decodeOk` is `CommandParameters::SetParameters` on the legacy text,
`applyOk` is `SetAutomationParameters`, `classInfo` is the serialized
class-state bytes produced by `CFPropertyListCreateData` (none when that
conversion fails), `writeOk` is `SetPrivateConfig`, `encode` is
`wxBase64Encode`, and `blobOk` collapses the blob path's
base64-decode / CFData / property-list / `SetProperty` chain, none of which
touches the configuration store. -/
structure PresetHost where
  decodeOk : String → Bool
  applyOk : String → Bool
  classInfo : Option (List Nat)
  writeOk : Bool
  encode : List Nat → String
  blobOk : String → Bool

/-- `AudioUnitEffect::SavePreset`: retrieves and serializes the class state;
a failed conversion returns `false`; zero-length data skips the write and
returns `true`; otherwise base64-encodes and writes the `"Data"` entry,
returning `false` if the write fails and `true` otherwise. -/
def SavePreset (h : PresetHost) (cfg : PresetConfig) : Bool × PresetConfig :=
  match h.classInfo with
  | none => (false, cfg)
  | some bytes =>
    if bytes.length ≠ 0 then
      if h.writeOk then (true, { cfg with data := some (h.encode bytes) })
      else (false, cfg)
    else (true, cfg)

/-- `AudioUnitEffect::LoadPreset`: when a legacy `"Parameters"` entry exists,
decodes it (`CommandParameters::SetParameters`), applies it
(`SetAutomationParameters`), resaves via `SavePreset`, and only when all
three succeed removes the legacy entry (`RemovePrivateConfig`); this branch
always returns `true`.  Otherwise reads the `"Data"` entry (absent: returns
`false`) and runs the blob-decoding chain, which never modifies the
configuration store. -/
def LoadPreset (h : PresetHost) (cfg : PresetConfig) : Bool × PresetConfig :=
  match cfg.parameters with
  | some parms =>
    if h.decodeOk parms then
      if h.applyOk parms then
        let r := SavePreset h cfg
        if r.1 then (true, { r.2 with parameters := none }) else (true, r.2)
      else (true, cfg)
    else (true, cfg)
  | none =>
    match cfg.data with
    | none => (false, cfg)
    | some d => (h.blobOk d, cfg)

/-- Concrete state for the latency counterexample/witness: latency option
enabled, plugin latency 5 seconds at sample rate 2. -/
def latencyEx : EffectState :=
  { useLatency := true, latencyDone := true, sampleRate := 2, unitLatency := 5,
    ready := false, sampleTime := 0 }

/-- Concrete realtime witness state: a stereo master with dirty buffers and a
stale frame counter, to be cleared by `RealtimeProcessStart`. -/
def rtStateEx : RealtimeState :=
  { audioIns := 2, masterIn := fun _ _ => 9, numSamples := 5 }

/-- First witness call: constant input 3, 4 frames. -/
def rtCallA : RTCall := { inbuf := fun _ _ => 3, n := 4 }

/-- Second witness call: constant input 5, 2 frames. -/
def rtCallB : RTCall := { inbuf := fun _ _ => 5, n := 2 }

/-- Concrete effect state for the realtime witness's master pass. -/
def effStateEx : EffectState :=
  { useLatency := true, latencyDone := false, sampleRate := 1, unitLatency := 0,
    ready := true, sampleTime := 0 }

/-- Host behavior on which legacy decoding fails: the counterexample to
unconditional migration. -/
def badLegacyHostEx : PresetHost :=
  { decodeOk := fun _ => false, applyOk := fun _ => false, classInfo := some [1],
    writeOk := true, encode := fun _ => "AQ==", blobOk := fun _ => true }

/-- A group holding an undecodable legacy `"Parameters"` entry. -/
def badLegacyCfgEx : PresetConfig := { parameters := some "garbage", data := none }

/-- Host behavior on which every migration step succeeds. -/
def migrateHostEx : PresetHost :=
  { decodeOk := fun _ => true, applyOk := fun _ => true, classInfo := some [7, 8],
    writeOk := true, encode := fun _ => "Bwg=", blobOk := fun _ => true }

/-- A group holding a decodable legacy `"Parameters"` entry. -/
def migrateCfgEx : PresetConfig := { parameters := some "p1=0.5", data := none }

/-- Host behavior whose class-state serialization is zero-length. -/
def emptyHostEx : PresetHost :=
  { decodeOk := fun _ => false, applyOk := fun _ => false, classInfo := some [],
    writeOk := true, encode := fun _ => "", blobOk := fun _ => false }

/-- A group with some pre-existing blob entry, to observe that `SavePreset`
leaves it unchanged. -/
def emptyCfgEx : PresetConfig := { parameters := none, data := some "ZGF0YQ==" }

end AudioUnitEffect

namespace AudioUnitWrapper

/-- Concrete audio unit for the `StoreSettings` witness: parameters 3 and 7
declared, everything queryable and settable, all values 1. -/
def storeAuEx : AudioUnit :=
  { values := fun _ => 1, gettable := fun _ => true, settable := fun _ => true,
    hasName := fun _ => true, params := [3, 7] }

/-- Witness cache holding a value only for parameter 7. -/
def storeCacheEx : AudioUnitEffectSettings :=
  ⟨fun id => if id = 7 then some 5 else none⟩

end AudioUnitWrapper

open AudioUnitEffectsModule AudioUnitEffect AudioUnitWrapper

/-- Byte decomposition of a 32-bit value: extracting each byte of
`X0 + X1·2⁸ + X2·2¹⁶ + X3·2²⁴` recovers `X0`, `X1`, `X2`, `X3`. -/
theorem byte_decomp (X0 X1 X2 X3 : Nat) (h0 : X0 < 256) (h1 : X1 < 256)
    (h2 : X2 < 256) (h3 : X3 < 256) :
    (X0 + X1 * 256 + X2 * 65536 + X3 * 16777216) % 256 = X0 ∧
    (X0 + X1 * 256 + X2 * 65536 + X3 * 16777216) / 256 % 256 = X1 ∧
    (X0 + X1 * 256 + X2 * 65536 + X3 * 16777216) / 65536 % 256 = X2 ∧
    (X0 + X1 * 256 + X2 * 65536 + X3 * 16777216) / 16777216 % 256 = X3 :=
  ⟨by omega, by omega, by omega, by omega⟩

/-- Claim C8: the two conversions between the packed 32-bit descriptor code
and its 4-character text form are mutually inverse byte-order inversions:
for every 32-bit identifier `x`, `ToOSType (FromOSType x) = x`, and for
every 4-character single-byte string (modelled as its four byte values),
`FromOSType (ToOSType s) = s`. -/
theorem osType_roundTrip (x b0 b1 b2 b3 : Nat)
    (hx : x < 4294967296) (h0 : b0 < 256) (h1 : b1 < 256)
    (h2 : b2 < 256) (h3 : b3 < 256) :
    ToOSType (FromOSType x) = x ∧
    FromOSType (ToOSType [b0, b1, b2, b3]) = [b0, b1, b2, b3] := by
  constructor
  · obtain ⟨X0, X1, X2, X3, g0, g1, g2, g3, rfl⟩ :
        ∃ X0 X1 X2 X3 : Nat, X0 < 256 ∧ X1 < 256 ∧ X2 < 256 ∧ X3 < 256 ∧
          x = X0 + X1 * 256 + X2 * 65536 + X3 * 16777216 :=
      ⟨x % 256, x / 256 % 256, x / 65536 % 256, x / 16777216 % 256,
        by omega, by omega, by omega, by omega, by omega⟩
    simp only [FromOSType, ToOSType, List.getD, List.get?, Option.getD_some]
    obtain ⟨e0, e1, e2, e3⟩ := byte_decomp X0 X1 X2 X3 g0 g1 g2 g3
    rw [e0, e1, e2, e3]
    obtain ⟨f0, f1, f2, f3⟩ := byte_decomp X3 X2 X1 X0 g3 g2 g1 g0
    rw [f0, f1, f2, f3]
    ring
  · simp only [FromOSType, ToOSType, List.getD, List.get?, Option.getD_some]
    have hT : b0 * 16777216 + b1 * 65536 + b2 * 256 + b3 =
        b3 + b2 * 256 + b1 * 65536 + b0 * 16777216 := by ring
    rw [hT]
    obtain ⟨e0, e1, e2, e3⟩ := byte_decomp b3 b2 b1 b0 h3 h2 h1 h0
    rw [e0, e1, e2, e3]
    obtain ⟨f0, f1, f2, f3⟩ := byte_decomp b0 b1 b2 b3 h0 h1 h2 h3
    rw [f0, f1, f2, f3]

/-- Witness for C8 at the type code of the spec's example descriptor, the
4-character code "aufx" (bytes 0x61 0x75 0x66 0x78, packed 0x61756678). -/
theorem osType_roundTrip_witness :
    ToOSType (FromOSType 0x61756678) = 0x61756678 ∧
    FromOSType (ToOSType [0x61, 0x75, 0x66, 0x78]) = [0x61, 0x75, 0x66, 0x78] :=
  osType_roundTrip 0x61756678 0x61 0x75 0x66 0x78
    (by decide) (by decide) (by decide) (by decide) (by decide)

/-- The code's componentwise flag predicate agrees with membership of the
pair in the resolved list. -/
theorem any_eq_contains (l : List (Int × Int)) (a b : Int) :
    (l.any fun p => p.1 == a && p.2 == b) = l.contains (a, b) := by
  induction l with
  | nil => rfl
  | cons q t ih =>
    simp only [List.any_cons, List.contains_cons, ih]
    congr 1
    cases q with
    | mk qa qb =>
      show (qa == a && qb == b) = ((a, b) == (qa, qb))
      rw [Bool.eq_iff_iff, Bool.and_eq_true, beq_iff_eq, beq_iff_eq, beq_iff_eq]
      constructor
      · rintro ⟨rfl, rfl⟩; exact rfl
      · intro h
        obtain ⟨h1, h2⟩ := Prod.mk.injEq a b qa qb ▸ h
        exact ⟨h1.symm, h2.symm⟩

set_option maxHeartbeats 1000000 in
/-- Claim C1: channel negotiation applies the fixed priority table.  After
resolving any wildcard (negative) channel field to 2, `GetChannelCounts`
chooses, first match wins, (2,2), (1,1), (1,2), (2,1), (0,1), (0,2), (2,0),
(1,0); when the plugin reports no constraint table at all, or none of these
patterns is present in the list, the chosen pair is (2,2).  Stated as:
`GetChannelCounts` coincides with the policy-as-worded `negotiateSpec` on
every input (`negotiateSpec` yields (2,2) for `none`, for a fruitless
`pickFirst`, and through the table's head entry otherwise). -/
theorem getChannelCounts_policy (info : Option (List AUChannelInfo)) :
    GetChannelCounts info = negotiateSpec info := by
  cases info with
  | none => rfl
  | some l =>
    simp only [GetChannelCounts, negotiateSpec, channelPriorityTable, pickFirst,
      any_eq_contains]
    by_cases h1 : (l.map resolveChannels).contains ((2 : Int), (2 : Int)) <;>
    by_cases h2 : (l.map resolveChannels).contains ((1 : Int), (1 : Int)) <;>
    by_cases h3 : (l.map resolveChannels).contains ((1 : Int), (2 : Int)) <;>
    by_cases h4 : (l.map resolveChannels).contains ((2 : Int), (1 : Int)) <;>
    by_cases h5 : (l.map resolveChannels).contains ((0 : Int), (1 : Int)) <;>
    by_cases h6 : (l.map resolveChannels).contains ((0 : Int), (2 : Int)) <;>
    by_cases h7 : (l.map resolveChannels).contains ((2 : Int), (0 : Int)) <;>
    by_cases h8 : (l.map resolveChannels).contains ((1 : Int), (0 : Int)) <;>
    simp only [h1, h2, h3, h4, h5, h6, h7, h8, if_true, if_false, Bool.false_eq_true,
      not_false_eq_true, Int.toNat_ofNat] <;> rfl

/-- Values written by the `FetchSettings` fold, in closed form. -/
theorem fetch_fold (au : AudioUnit) (l : List Nat) (s : AudioUnitEffectSettings) (id : Nat) :
    (l.foldl (fun s ID =>
      if au.hasName ID && au.gettable ID then
        ⟨fun i => if i = ID then some (au.values ID) else s.values i⟩
      else s) s).values id =
    if id ∈ l ∧ au.hasName id ∧ au.gettable id then some (au.values id) else s.values id := by
  induction l generalizing s with
  | nil => simp
  | cons a t ih =>
    simp only [List.foldl_cons, ih, List.mem_cons]
    by_cases hid : id = a
    · subst hid
      by_cases hn : au.hasName id = true <;> by_cases hg : au.gettable id = true <;>
        simp [hn, hg]
    · by_cases hn : au.hasName a = true <;> by_cases hg : au.gettable a = true <;>
        simp [hn, hg, hid]

/-- The cache produced by `FetchSettings`, in closed form: the unit's value
for queryable named parameters, the reset default 0 for the other declared
parameters, nothing for undeclared ids. -/
theorem fetchSettings_values (au : AudioUnit) (id : Nat) :
    ((FetchSettings au).2).values id =
      if id ∈ au.params then
        (if au.hasName id ∧ au.gettable id then some (au.values id) else some 0)
      else none := by
  show (au.params.foldl _ (ResetValues au)).values id = _
  rw [fetch_fold]
  simp only [ResetValues]
  by_cases hm : id ∈ au.params <;> by_cases hn : au.hasName id = true <;>
    by_cases hg : au.gettable id = true <;> simp [hm, hn, hg]

/-- Values written by the `StoreSettings` fold, in closed form. -/
theorem store_fold (au : AudioUnit) (c : AudioUnitEffectSettings) (l : List Nat)
    (vals : Nat → Rat) (id : Nat) :
    (l.foldl (fun vals ID =>
      if au.hasName ID then
        match c.values ID with
        | some v => if au.settable ID then (fun i => if i = ID then v else vals i) else vals
        | none => vals
      else vals) vals) id =
    if id ∈ l ∧ au.hasName id ∧ au.settable id then (c.values id).getD (vals id)
    else vals id := by
  induction l generalizing vals with
  | nil => simp
  | cons a t ih =>
    simp only [List.foldl_cons, ih, List.mem_cons]
    by_cases hid : id = a
    · subst hid
      by_cases hn : au.hasName id = true <;> by_cases hs : au.settable id = true <;>
        cases hc : c.values id <;> simp [hn, hs, hc]
    · by_cases hn : au.hasName a = true <;> by_cases hs : au.settable a = true <;>
        cases hc : c.values a <;> simp [hn, hs, hc, hid]

/-- The unit state after `StoreSettings`, in closed form: a declared, named,
settable parameter present in the cache takes the cached value; everything
else keeps the unit's previous value. -/
theorem storeSettings_values (au : AudioUnit) (c : AudioUnitEffectSettings) (id : Nat) :
    ((StoreSettings au c).2).values id =
      if id ∈ au.params ∧ au.hasName id ∧ au.settable id then (c.values id).getD (au.values id)
      else au.values id := by
  show (au.params.foldl _ au.values) id = _
  rw [store_fold]

/-- `StoreSettings` touches only the unit's parameter values. -/
theorem storeSettings_fields (au : AudioUnit) (c : AudioUnitEffectSettings) :
    ((StoreSettings au c).2).params = au.params ∧
    ((StoreSettings au c).2).hasName = au.hasName ∧
    ((StoreSettings au c).2).gettable = au.gettable ∧
    ((StoreSettings au c).2).settable = au.settable :=
  ⟨rfl, rfl, rfl, rfl⟩

/-- Claim C5: for every instance state, running `FetchSettings`, then
`StoreSettings` with the resulting untouched cache, then `FetchSettings`
again yields a settings map equal to the one produced by the first
`FetchSettings`. -/
theorem fetchSettings_storeSettings_idempotent (au : AudioUnit) :
    (FetchSettings (StoreSettings au (FetchSettings au).2).2).2 = (FetchSettings au).2 := by
  ext id
  rw [fetchSettings_values, fetchSettings_values]
  obtain ⟨hp, hn, hg, hs⟩ := storeSettings_fields au (FetchSettings au).2
  rw [hp, hn, hg]
  by_cases hm : id ∈ au.params <;> by_cases hname : au.hasName id = true <;>
    by_cases hget : au.gettable id = true <;>
    simp only [hm, hname, hget, if_true, if_false, and_true, true_and, and_self,
      if_pos, not_false_eq_true]
  · rw [storeSettings_values, fetchSettings_values]
    simp [hm, hname, hget]
  all_goals simp [hm, hname, hget]

/-- Claim C7: for every supplied settings cache, `StoreSettings` pushes into
the plugin the value of each declared parameter whose id is present in the
cache (here: parameter `id`, whose set the plugin accepts), and leaves every
parameter whose id is absent from the cache (here: `id2`) unmodified in the
plugin — no implicit reset. -/
theorem storeSettings_pushes_and_preserves (au : AudioUnit) (c : AudioUnitEffectSettings)
    (id id2 : Nat) (v : Rat)
    (hmem : id ∈ au.params) (hname : au.hasName id = true) (hset : au.settable id = true)
    (hv : c.values id = some v) (habs : c.values id2 = none) :
    ((StoreSettings au c).2).values id = v ∧
    ((StoreSettings au c).2).values id2 = au.values id2 := by
  constructor
  · rw [storeSettings_values]
    simp [hmem, hname, hset, hv]
  · rw [storeSettings_values]
    simp [habs]

/-- Witness for C7: in the concrete two-parameter unit, storing a cache that
holds only parameter 7 sets 7 to the cached value and leaves 3 alone. -/
theorem storeSettings_pushes_and_preserves_witness :
    ((StoreSettings storeAuEx storeCacheEx).2).values 7 = 5 ∧
    ((StoreSettings storeAuEx storeCacheEx).2).values 3 = storeAuEx.values 3 :=
  storeSettings_pushes_and_preserves storeAuEx storeCacheEx 7 3 5
    (by decide) rfl rfl rfl rfl

/-- Claim C9: `FetchSettings` and `StoreSettings` both return `true` for
every input and every pattern of per-parameter query/set failures (the
`gettable`/`settable`/`hasName` fields of `au` quantify over all such
patterns): no per-parameter failure is ever reflected in the boolean
result. -/
theorem fetchSettings_storeSettings_always_true (au : AudioUnit)
    (s : AudioUnitEffectSettings) :
    (FetchSettings au).1 = true ∧ (StoreSettings au s).1 = true :=
  ⟨rfl, rfl⟩

/-- Once the latency has been reported (or the option is off), `GetLatency`
returns 0 and leaves the state unchanged, so every further call also
returns 0. -/
theorem nthGetLatency_stuck (st : EffectState)
    (h : st.useLatency = false ∨ st.latencyDone = true) :
    ∀ m, nthGetLatency m st = 0 := by
  have hstep : GetLatency st = (0, st) := by
    rcases h with h | h <;> simp [GetLatency, h]
  intro m
  induction m with
  | zero => simp [nthGetLatency, hstep]
  | succ k ih => simp [nthGetLatency, hstep, ih]

/-- Counterexample to claim C2 as stated: with the latency option enabled,
plugin latency 5 at sample rate 2, the first `GetLatency` call after
`ProcessInitialize` returns 10 but the second call of the same session
returns 0, not the cached first value. -/
theorem getLatency_not_cached_counterexample :
    nthGetLatency 1 ((ProcessInitialize true latencyEx).2) ≠
    nthGetLatency 0 ((ProcessInitialize true latencyEx).2) := by
  norm_num [nthGetLatency, ProcessInitialize, GetLatency, latencyEx]

/-- Claim C2 as amended: for every processing session (delimited by a
successful `ProcessInitialize`, which clears `mLatencyDone`), when the
`UseLatency` option is enabled, `GetLatency` computes and returns the plugin
latency (scaled by the sample rate) on its first call, and every later call
in the same session returns zero; when the option is disabled, every call
returns zero. -/
theorem getLatency_once_per_session (st : EffectState) (n m : Nat) (hn : 1 ≤ n) :
    (st.useLatency = true →
      nthGetLatency 0 ((ProcessInitialize true st).2) = st.unitLatency * st.sampleRate ∧
      nthGetLatency n ((ProcessInitialize true st).2) = 0) ∧
    (st.useLatency = false →
      nthGetLatency m ((ProcessInitialize true st).2) = 0) := by
  constructor
  · intro hu
    constructor
    · simp [nthGetLatency, ProcessInitialize, GetLatency, hu]
    · obtain ⟨k, rfl⟩ : ∃ k, n = k + 1 := ⟨n - 1, by omega⟩
      show nthGetLatency k (GetLatency ((ProcessInitialize true st).2)).2 = 0
      have h2 : (GetLatency ((ProcessInitialize true st).2)).2.latencyDone = true := by
        simp [ProcessInitialize, GetLatency, hu]
      exact nthGetLatency_stuck _ (Or.inr h2) k
  · intro hu
    exact nthGetLatency_stuck _ (Or.inl (by simp [ProcessInitialize, hu])) m

/-- Witness for the amended C2: in the concrete session the first call
returns 10 = 5 × 2 and the third call returns 0. -/
theorem getLatency_once_per_session_witness :
    nthGetLatency 0 ((ProcessInitialize true latencyEx).2) =
      latencyEx.unitLatency * latencyEx.sampleRate ∧
    nthGetLatency 2 ((ProcessInitialize true latencyEx).2) = 0 :=
  (getLatency_once_per_session latencyEx 2 0 (by decide)).1 rfl

/-- Claim C6: `ProcessBlock` returns the number of frames actually produced:
`blockLen` when the render succeeds and 0 when it fails; being a total Lean
function of the render outcome, no exception propagates out of the call in
either case. -/
theorem processBlock_frame_count (renderOk : Bool) (blockLen : Nat) (st : EffectState) :
    (ProcessBlock renderOk blockLen st).1 = if renderOk then blockLen else 0 := by
  cases renderOk <;> rfl

/-- `RealtimeProcess` calls do not change the channel count. -/
theorem rt_fold_audioIns (calls : List RTCall) (st : RealtimeState) :
    (calls.foldl RealtimeProcess st).audioIns = st.audioIns := by
  induction calls generalizing st with
  | nil => rfl
  | cons k t ih => exact (ih (RealtimeProcess st k)).trans rfl

/-- Accumulation in closed form: folding `RealtimeProcess` adds, channel by
channel and sample by sample, each call's contribution (its input sample
when the call covers sample `s`, nothing otherwise). -/
theorem rt_fold_masterIn (calls : List RTCall) (st : RealtimeState) (c s : Nat)
    (hc : c < st.audioIns) :
    (calls.foldl RealtimeProcess st).masterIn c s =
      st.masterIn c s + (calls.map fun k => if s < k.n then k.inbuf c s else 0).sum := by
  induction calls generalizing st with
  | nil => simp
  | cons k t ih =>
    simp only [List.foldl_cons, List.map_cons, List.sum_cons]
    rw [ih (RealtimeProcess st k) hc]
    have hstep : (RealtimeProcess st k).masterIn c s =
        st.masterIn c s + (if s < k.n then k.inbuf c s else 0) := by
      by_cases hs : s < k.n <;> simp [RealtimeProcess, hc, hs]
    rw [hstep]
    ring

/-- Channels at or beyond the group's input channel count are never
accumulated into. -/
theorem rt_fold_masterIn_ge (calls : List RTCall) (st : RealtimeState) (c s : Nat)
    (hc : ¬ c < st.audioIns) :
    (calls.foldl RealtimeProcess st).masterIn c s = st.masterIn c s := by
  induction calls generalizing st with
  | nil => rfl
  | cons k t ih =>
    simp only [List.foldl_cons]
    rw [ih (RealtimeProcess st k) hc]
    simp [RealtimeProcess, hc]

/-- The frame counter in closed form: folding `RealtimeProcess` raises the
counter to the maximum frame count among the calls. -/
theorem rt_fold_numSamples (calls : List RTCall) (st : RealtimeState) :
    (calls.foldl RealtimeProcess st).numSamples =
      max st.numSamples ((calls.map RTCall.n).foldr max 0) := by
  induction calls generalizing st with
  | nil => simp
  | cons k t ih =>
    simp only [List.foldl_cons, List.map_cons, List.foldr_cons]
    rw [ih (RealtimeProcess st k)]
    show max (max k.n st.numSamples) _ = _
    omega

/-- Claim C3: over an audio cycle started by `RealtimeProcessStart` (which
clears the summing buffers and the frame counter) and containing the
`RealtimeProcess` calls in `calls`, each summing-input-buffer sample the
master processes in `RealtimeProcessEnd` equals the elementwise sum of the
corresponding input samples across those calls (per channel `c` below the
group's own input channel count, per sample; channels at or beyond that
count stay untouched at zero), and `RealtimeProcessEnd` runs the master's
`ProcessBlock` over the maximum frame count seen in the cycle. -/
theorem realtime_cycle_summing (st : RealtimeState) (calls : List RTCall)
    (c s c2 s2 : Nat) (renderOk : Bool) (est : EffectState)
    (hc : c < st.audioIns) (hc2 : st.audioIns ≤ c2) :
    (runCycle st calls).masterIn c s =
      (calls.map fun k => if s < k.n then k.inbuf c s else 0).sum ∧
    (runCycle st calls).masterIn c2 s2 = 0 ∧
    (runCycle st calls).numSamples = (calls.map RTCall.n).foldr max 0 ∧
    RealtimeProcessEnd renderOk (runCycle st calls) est =
      (true, ProcessBlock renderOk ((calls.map RTCall.n).foldr max 0) est) ∧
    (RealtimeProcessStart st).masterIn c s = 0 ∧
    (RealtimeProcessStart st).numSamples = 0 := by
  have hnum : (runCycle st calls).numSamples = (calls.map RTCall.n).foldr max 0 := by
    show (calls.foldl RealtimeProcess (RealtimeProcessStart st)).numSamples = _
    rw [rt_fold_numSamples]
    show max 0 _ = _
    omega
  refine ⟨?_, ?_, hnum, ?_, rfl, rfl⟩
  · show (calls.foldl RealtimeProcess (RealtimeProcessStart st)).masterIn c s = _
    rw [rt_fold_masterIn calls (RealtimeProcessStart st) c s hc]
    show 0 + _ = _
    ring
  · show (calls.foldl RealtimeProcess (RealtimeProcessStart st)).masterIn c2 s2 = 0
    rw [rt_fold_masterIn_ge calls (RealtimeProcessStart st) c2 s2
      (show ¬ c2 < st.audioIns by omega)]
    rfl
  · show (true, ProcessBlock renderOk (runCycle st calls).numSamples est) = _
    rw [hnum]

/-- Witness for C3: a stereo master, two calls of constant inputs 3 (4
frames) and 5 (2 frames); sample 1 of channel 0 sums to 3 + 5, channel 2 is
untouched, and the master pass runs over max(4, 2) frames. -/
theorem realtime_cycle_summing_witness :
    (runCycle rtStateEx [rtCallA, rtCallB]).masterIn 0 1 =
      (([rtCallA, rtCallB]).map fun k => if 1 < k.n then k.inbuf 0 1 else 0).sum ∧
    (runCycle rtStateEx [rtCallA, rtCallB]).masterIn 2 0 = 0 ∧
    (runCycle rtStateEx [rtCallA, rtCallB]).numSamples =
      (([rtCallA, rtCallB]).map RTCall.n).foldr max 0 ∧
    RealtimeProcessEnd true (runCycle rtStateEx [rtCallA, rtCallB]) effStateEx =
      (true, ProcessBlock true ((([rtCallA, rtCallB]).map RTCall.n).foldr max 0) effStateEx) ∧
    (RealtimeProcessStart rtStateEx).masterIn 0 1 = 0 ∧
    (RealtimeProcessStart rtStateEx).numSamples = 0 :=
  realtime_cycle_summing rtStateEx [rtCallA, rtCallB] 0 1 2 0 true effStateEx
    (by decide) (by decide)

/-- Counterexample to claim C4 as stated: when the legacy `"Parameters"`
text does not decode, the first `LoadPreset` keeps the legacy entry, so
after the load the legacy key is still present. -/
theorem loadPreset_migration_counterexample :
    ((LoadPreset badLegacyHostEx badLegacyCfgEx).2).parameters ≠ none := by
  decide

/-- Claim C4 as amended: legacy-preset migration is one-way and
at-most-once for every group whose legacy `"Parameters"` entry decodes,
applies and resaves successfully: the first load returns `true`, removes the
legacy entry and persists the re-encoded blob under the `"Data"` key, so the
legacy key is absent afterwards and a second load no longer finds a legacy
key (it takes the blob path, which leaves the stored configuration
unchanged); when any step fails the legacy entry is kept. -/
theorem loadPreset_migration (h : PresetHost) (cfg : PresetConfig)
    (parms : String) (bytes : List Nat)
    (hleg : cfg.parameters = some parms)
    (hdec : h.decodeOk parms = true) (happ : h.applyOk parms = true)
    (hblob : h.classInfo = some bytes) (hne : bytes ≠ []) (hw : h.writeOk = true) :
    (LoadPreset h cfg).1 = true ∧
    ((LoadPreset h cfg).2).parameters = none ∧
    ((LoadPreset h cfg).2).data = some (h.encode bytes) ∧
    (LoadPreset h ((LoadPreset h cfg).2)).2 = (LoadPreset h cfg).2 := by
  have hlen : bytes.length ≠ 0 := fun hl => hne (List.length_eq_zero.mp hl)
  have hload : LoadPreset h cfg =
      (true, { cfg with parameters := none, data := some (h.encode bytes) }) := by
    simp [LoadPreset, hleg, hdec, happ, SavePreset, hblob, hlen, hw]
  refine ⟨by rw [hload], by rw [hload], by rw [hload], ?_⟩
  rw [hload]
  simp [LoadPreset]

/-- Witness for the amended C4 on a concrete decodable legacy group. -/
theorem loadPreset_migration_witness :
    (LoadPreset migrateHostEx migrateCfgEx).1 = true ∧
    ((LoadPreset migrateHostEx migrateCfgEx).2).parameters = none ∧
    ((LoadPreset migrateHostEx migrateCfgEx).2).data =
      some (migrateHostEx.encode [7, 8]) ∧
    (LoadPreset migrateHostEx ((LoadPreset migrateHostEx migrateCfgEx).2)).2 =
      (LoadPreset migrateHostEx migrateCfgEx).2 :=
  loadPreset_migration migrateHostEx migrateCfgEx "p1=0.5" [7, 8]
    rfl rfl rfl rfl (by decide) rfl

/-- Claim C10: when the plugin's serialized class-state data has zero
length, `SavePreset` writes nothing to the configuration store (the preset
group, including its `"Data"` key, is left unchanged) and still returns
`true`, reporting success although no preset was stored. -/
theorem savePreset_empty_data (h : PresetHost) (cfg : PresetConfig)
    (hempty : h.classInfo = some []) :
    SavePreset h cfg = (true, cfg) := by
  simp [SavePreset, hempty]

/-- Witness for C10 on a concrete group with a pre-existing blob entry. -/
theorem savePreset_empty_data_witness :
    SavePreset emptyHostEx emptyCfgEx = (true, emptyCfgEx) :=
  savePreset_empty_data emptyHostEx emptyCfgEx rfl
